/-
Verification of the "term" terminal multiplexer (Go).

Shallow embedding of the parts of the code the claims are about:
  * the wire codec: 1 type byte, 4-byte big-endian length, payload
    (session.go createRedrawMessage / SessionManager.Run, client read loop);
  * the hand-rolled terminal-emulator grid PaneBuffer and its Write loop
    (unnamed/part_003);
  * session pane lifecycle NewPane / RemovePane with the session mutex
    modelled explicitly (session.go);
  * the Broadcast lock/write event trace (session.go Broadcast);
  * the client-side data-message handler (unnamed/part_000, clientstate.go).

Bytes and runes are modelled as Nat; Go slice indexing that can fail at
runtime (index out of range) is modelled with Option, where none stands for
the runtime fault; a goroutine blocking forever on an already-held
non-reentrant sync.Mutex is likewise modelled as none (no result).
-/
import Mathlib

namespace Term

/-! ## Wire codec

Every message the daemon or client writes is built as
header[0] = type, header[1:5] = BigEndian.PutUint32(uint32(len(payload))),
followed by the payload bytes (session.go lines 218-223, 77-97, 225-234;
client input loop).  The reader side reads 5 header bytes, extracts the
big-endian length and then reads exactly that many payload bytes
(SessionManager.Run lines 127-140, client read loop in part_003).  -/

/-- Big-endian 4-byte encoding of a Nat, as Go BigEndian.PutUint32 writes the
low 32 bits of the value. -/
def be32 (n : Nat) : List Nat :=
  [n / 2 ^ 24 % 256, n / 2 ^ 16 % 256, n / 2 ^ 8 % 256, n % 256]

/-- Encoder: one type byte, the 4-byte big-endian payload length (the Go code
converts len(payload), an int, through uint32, hence the mod 2^32), then the
payload itself. -/
def encodeMsg (t : Nat) (payload : List Nat) : List Nat :=
  t :: be32 (payload.length % 2 ^ 32) ++ payload

/-- Decoder: read a 5-byte header, take the declared number of payload bytes.
Returns (type, payload, rest-of-stream); none models the Go read loop
returning on io.ReadFull error (truncated stream ends the connection). -/
def decodeMsg (s : List Nat) : Option (Nat × List Nat × List Nat) :=
  match s with
  | t :: a :: b :: c :: d :: rest =>
      let len := ((a * 256 + b) * 256 + c) * 256 + d
      if len ≤ rest.length then some (t, rest.take len, rest.drop len) else none
  | _ => none

/-! ## Terminal emulator grid (PaneBuffer, unnamed/part_003) -/

/-- The hand-rolled grid buffer: content is a list of rows of runes, plus a
cursor, the configured size and the ANSI escape-parsing state. -/
structure PaneBuffer where
  content : List (List Nat)
  cursorX : Nat
  cursorY : Nat
  width : Nat
  height : Nat
  inEscape : Bool
  escapeBuf : List Nat
deriving DecidableEq, Repr

/-- NewPaneBuffer: a blank width x height grid, cursor at the origin, not in
an escape sequence. -/
def NewPaneBuffer (width height : Nat) : PaneBuffer :=
  { content := List.replicate height (List.replicate width 32)
    cursorX := 0
    cursorY := 0
    width := width
    height := height
    inEscape := false
    escapeBuf := [] }

/-- Go's content[y][x] = v.  none models the index-out-of-range runtime fault
when y or x is outside the slice. -/
def setCell (content : List (List Nat)) (y x v : Nat) :
    Option (List (List Nat)) :=
  match content[y]? with
  | none => none
  | some row =>
      if x < row.length then some (content.set y (row.set x v)) else none

/-- Result of Go's copy(content, content[1:]): every row shifts up one place
and the last row keeps its old value (it is overwritten with a blank row
right after, inside the scroll step of Write). -/
def copyUp (content : List (List Nat)) : List (List Nat) :=
  match content with
  | [] => []
  | c :: rest => rest ++ [(c :: rest).getLastD []]

/-- CSI dispatch of Write: only fires when the accumulated sequence is longer
than one byte and starts with the byte 0x5B; cases H (cursor home), J (blank
the whole grid, cursor home) and m (consumed, no effect).  Mirrors part_003
lines 65-82.  Note the accumulated buffer always starts with ESC (0x1B) in
any state Write itself produces, so this dispatch never fires there. -/
def processCSI (pb : PaneBuffer) (seq : List Nat) : PaneBuffer :=
  if 1 < seq.length ∧ seq.headD 0 = 0x5B then
    match seq.getLastD 0 with
    | 0x48 => { pb with cursorX := 0, cursorY := 0 }
    | 0x4A =>
        { pb with
          content := List.replicate pb.height (List.replicate pb.width 32)
          cursorX := 0
          cursorY := 0 }
    | _ => pb
  else pb

/-- The tail of the printable-byte branch of Write, after the wrap check
has fixed the target column x and row y: scroll when the row is past the
bottom (copy the rows up, blank the last row), then store the byte and
advance the cursor one column (part_003 lines 112-122).  none models a Go
panic from an out-of-range slice index (the blank-row store at height - 1,
or the cell store). -/
def writePrintableAt (pb : PaneBuffer) (x y b : Nat) : Option PaneBuffer :=
  if pb.height ≤ y then
    if pb.height = 0 ∨ pb.content.length ≤ pb.height - 1 then none
    else
      (setCell
          ((copyUp pb.content).set (pb.height - 1)
            (List.replicate pb.width 32))
          (pb.height - 1) x b).map fun c =>
        { pb with content := c, cursorX := x + 1, cursorY := pb.height - 1 }
  else
    (setCell pb.content y x b).map fun c =>
      { pb with content := c, cursorX := x + 1, cursorY := y }

/-- One iteration of the byte loop in PaneBuffer.Write (part_003 lines
51-126), processing a single input byte.  none models a Go panic from an
out-of-range slice index. -/
def writeByte (pb : PaneBuffer) (b : Nat) : Option PaneBuffer :=
  if pb.inEscape then
    let buf := pb.escapeBuf ++ [b]
    if 0x40 ≤ b ∧ b ≤ 0x7E then
      some { processCSI pb buf with inEscape := false, escapeBuf := [] }
    else if b = 0x07 then
      some { pb with inEscape := false, escapeBuf := [] }
    else if 1 < buf.length ∧ buf.headD 0 = 0x5D ∧ b = 0x5C then
      some { pb with inEscape := false, escapeBuf := [] }
    else
      some { pb with escapeBuf := buf }
  else if b = 0x1B then
    some { pb with inEscape := true, escapeBuf := pb.escapeBuf ++ [b] }
  else if b = 0x0A then
    some { pb with cursorY := pb.cursorY + 1, cursorX := 0 }
  else if b = 0x0D then
    some { pb with cursorX := 0 }
  else if b = 0x08 then
    let x := if 0 < pb.cursorX then pb.cursorX - 1 else pb.cursorX
    (setCell pb.content pb.cursorY x 32).map fun c =>
      { pb with cursorX := x, content := c }
  else if pb.width ≤ pb.cursorX then
    writePrintableAt pb 0 (pb.cursorY + 1) b
  else
    writePrintableAt pb pb.cursorX pb.cursorY b

/-- PaneBuffer.Write: fold the single-byte step over the whole input slice. -/
def PaneBuffer.Write (pb : PaneBuffer) (p : List Nat) : Option PaneBuffer :=
  match p with
  | [] => some pb
  | b :: rest => (writeByte pb b).bind fun pb₁ => pb₁.Write rest

/-! ## Session pane lifecycle (session.go)

The session mutex is a non-reentrant sync.Mutex: a goroutine that calls
Lock while it already holds the lock blocks forever.  Operations therefore
take an explicit flag saying whether the calling goroutine already holds the
session mutex; attempting to lock a held mutex yields none (no result,
the operation never terminates).  The pty spawn inside NewPane is external
I/O and is modelled as always succeeding; log output is dropped. -/

/-- Locking the session mutex: none when the caller already holds it
(sync.Mutex is not reentrant, the call never returns). -/
def mutexLock (held : Bool) : Option Unit :=
  if held then none else some ()

/-- Go json.Marshal of a non-negative int: its decimal digits as bytes. -/
def jsonNat (n : Nat) : List Nat :=
  (toString n).toList.map Char.toNat

/-- The status text of Session.redraw, the bytes of Sprintf with the active
pane index. -/
def statusMsg (activePane : Int) : List Nat :=
  ("Pane: " ++ toString activePane).toList.map Char.toNat

/-- Session state: pane ids in order, the active index (a Go int, transiently
-1 inside RemovePane), the next fresh pane id, and the attached client
connections (the keys of the clients map). -/
structure GoSession where
  panes : List Nat
  activePane : Int
  nextPaneID : Nat
  clients : List Nat
deriving DecidableEq, Repr

/-- Session.Broadcast: writes the same byte string to every attached client;
the write log as (connection, bytes) pairs. -/
def Broadcast (s : GoSession) (msg : List Nat) : List (Nat × List Nat) :=
  s.clients.map fun c => (c, msg)

/-- Session.NewPane: lock the session mutex, create the pane with id
nextPaneID, append it, make it active, broadcast the 0x0A new-pane
notification carrying the JSON pane id, then redraw (broadcast the 0x08
status message).  Returns the new session state and the write log. -/
def NewPane (held : Bool) (s : GoSession) :
    Option (GoSession × List (Nat × List Nat)) := do
  let _ ← mutexLock held
  let pid := s.nextPaneID
  let panes₁ := s.panes ++ [pid]
  let s₁ : GoSession :=
    { panes := panes₁
      activePane := (panes₁.length : Int) - 1
      nextPaneID := s.nextPaneID + 1
      clients := s.clients }
  let notif := encodeMsg 0x0A (jsonNat pid)
  let redraw := encodeMsg 0x08 (statusMsg s₁.activePane)
  some (s₁, Broadcast s₁ notif ++ Broadcast s₁ redraw)

/-- Session.RemovePane: lock the session mutex, find the pane, close it and
splice it out; clamp the active index to the last slot when it fell off the
end; when it becomes negative (the removed pane was the only one) call
s.NewPane() — which locks the already-held session mutex; then redraw. -/
def RemovePane (held : Bool) (s : GoSession) (id : Nat) :
    Option (GoSession × List (Nat × List Nat)) := do
  let _ ← mutexLock held
  match s.panes.findIdx? (fun p => p == id) with
  | none => some (s, [])
  | some i =>
      let panes₁ := s.panes.eraseIdx i
      let ap₁ : Int :=
        if (panes₁.length : Int) ≤ s.activePane then (panes₁.length : Int) - 1
        else s.activePane
      let s₁ : GoSession := { s with panes := panes₁, activePane := ap₁ }
      if ap₁ < 0 then do
        let (s₂, w₂) ← NewPane true s₁
        some (s₂, w₂ ++ Broadcast s₂ (encodeMsg 0x08 (statusMsg s₂.activePane)))
      else
        some (s₁, Broadcast s₁ (encodeMsg 0x08 (statusMsg ap₁)))

/-- The messages a given connection receives from a write log, in order. -/
def receivedBy (conn : Nat) (writes : List (Nat × List Nat)) :
    List (List Nat) :=
  (writes.filter fun w => w.1 == conn).map fun w => w.2

/-! ## Broadcast lock discipline (session.go Broadcast)

Session.Broadcast locks clientMutex, defers the unlock, and performs every
conn.Write inside the loop; a failed write is only logged and the loop goes
on.  The event trace of one Broadcast call, derived from that structure: -/

/-- Lock and write events of one Broadcast call. -/
inductive BEvent where
  | acquire
  | release
  | write (conn : Nat) (ok : Bool)
deriving DecidableEq, Repr

/-- The event trace of Session.Broadcast: acquire clientMutex, write to each
client in turn (failures logged, loop continues), release at function exit
via defer. -/
def broadcastTrace (clients : List Nat) (failing : List Nat) : List BEvent :=
  BEvent.acquire ::
    (clients.map fun c => BEvent.write c (!(failing.contains c))) ++
      [BEvent.release]

/-- Every write event in the trace happens while the lock is not held, given
the starting hold depth. -/
def allWritesOutsideLock (tr : List BEvent) (depth : Nat) : Bool :=
  match tr with
  | [] => true
  | BEvent.acquire :: r => allWritesOutsideLock r (depth + 1)
  | BEvent.release :: r => allWritesOutsideLock r (depth - 1)
  | BEvent.write _ _ :: r => depth == 0 && allWritesOutsideLock r depth

/-- Every write event in the trace happens while the lock is held, given the
starting hold depth. -/
def allWritesUnderLock (tr : List BEvent) (depth : Nat) : Bool :=
  match tr with
  | [] => true
  | BEvent.acquire :: r => allWritesUnderLock r (depth + 1)
  | BEvent.release :: r => allWritesUnderLock r (depth - 1)
  | BEvent.write _ _ :: r => depth != 0 && allWritesUnderLock r depth

/-- The connections written to in a trace, in order, failures included. -/
def writeTargets (tr : List BEvent) : List Nat :=
  match tr with
  | [] => []
  | BEvent.write c _ :: r => c :: writeTargets r
  | _ :: r => writeTargets r

/-! ## Client-side data handler (unnamed/part_000, clientstate.go) -/

/-- Client mirror state: one PaneBuffer per known pane id, the locally
tracked active pane id and the status line bytes. -/
structure GoClientState where
  paneBuffers : List (Nat × PaneBuffer)
  activePaneID : Nat
  status : List Nat
deriving DecidableEq, Repr

/-- Lookup of the Go map paneBuffers[paneID]. -/
def lookupPB (l : List (Nat × PaneBuffer)) (k : Nat) : Option PaneBuffer :=
  (l.find? fun e => e.1 == k).map fun e => e.2

/-- In-place mutation of the buffer stored under a key (the Go map holds a
pointer; Write mutates the pointee). -/
def updatePB (l : List (Nat × PaneBuffer)) (k : Nat) (pb : PaneBuffer) :
    List (Nat × PaneBuffer) :=
  l.map fun e => if e.1 == k then (k, pb) else e

/-- ClientState.HandleDataMessage: payloads shorter than 4 bytes are ignored;
otherwise the first 4 bytes are the big-endian pane id, the rest is fed to
that pane's buffer when one exists, and the screen is redrawn only when the
pane is the active one.  The returned Bool says whether Draw was called;
none models a Go panic inside the buffer write. -/
def HandleDataMessage (cs : GoClientState) (payload : List Nat) :
    Option (GoClientState × Bool) :=
  if 4 ≤ payload.length then
    match payload with
    | a :: b :: c :: d :: data =>
        let paneID := ((a * 256 + b) * 256 + c) * 256 + d
        match lookupPB cs.paneBuffers paneID with
        | some pb =>
            (pb.Write data).map fun pb₁ =>
              ({ cs with paneBuffers := updatePB cs.paneBuffers paneID pb₁ },
                paneID == cs.activePaneID)
        | none => some (cs, false)
    | _ => some (cs, false)
  else
    some (cs, false)

/-! ## Well-formedness of a grid and printable bytes -/

/-- A grid is well formed when it has exactly height rows, each of width
cells — the shape NewPaneBuffer establishes. -/
def WF (pb : PaneBuffer) : Prop :=
  pb.content.length = pb.height ∧ ∀ r ∈ pb.content, r.length = pb.width

instance (pb : PaneBuffer) : Decidable (WF pb) := by
  unfold WF; infer_instance

/-- A byte the Write loop treats as printable text: none of ESC, newline,
carriage return, backspace (the bytes with dedicated branches). -/
def Printable (b : Nat) : Prop :=
  b ≠ 0x1B ∧ b ≠ 0x0A ∧ b ≠ 0x0D ∧ b ≠ 0x08

instance (b : Nat) : Decidable (Printable b) := by
  unfold Printable; infer_instance

/-- The rune stored at (column x, row y) of a grid. -/
def cellAt (pb : PaneBuffer) (y x : Nat) : Nat :=
  (pb.content.getD y []).getD x 0

/-! ## Theorems -/

/-- C1: each-claim theorem.  RemovePane called on the identifier of the sole
remaining pane never terminates: after splicing the pane out the active
index becomes -1 and RemovePane calls Session.NewPane while still holding
the non-reentrant session mutex, so the replacement-pane creation deadlocks
(modelled as none).  The claim that the operation terminates with exactly
one pane and broadcasts a redraw is refuted by this evaluation. -/
theorem RemovePane_sole_pane_deadlocks :
    RemovePane false ⟨[0], 0, 1, [9]⟩ 0 = none := by
  decide

/-- C2: on a 1x1 grid, a newline pushes the cursor row to 1 = height, out of
the claimed range [0, height); the following backspace then indexes row 1 of
a 1-row grid, a runtime fault (Go index out of range), modelled as none. -/
theorem Write_cursor_leaves_bounds_and_faults :
    ((NewPaneBuffer 1 1).Write [0x0A]).map (fun pb => pb.cursorY) = some 1 ∧
      (NewPaneBuffer 1 1).Write [0x0A, 0x08] = none := by
  decide

/-- C8: feeding ESC [ 2 J to a blank 2x2 grid does not clear the screen: the
byte 0x5B itself lies in the terminator range 0x40-0x7E, so the escape state
ends on it before the CSI dispatch can ever see a sequence starting with
0x5B, and the bytes for 2 and J are written to the grid as ordinary text,
leaving the cursor at (2, 0) rather than (0, 0). -/
theorem Write_clear_screen_sequence_ignored :
    ((NewPaneBuffer 2 2).Write [0x1B, 0x5B, 0x32, 0x4A]).map
        (fun pb => (pb.content, pb.cursorX, pb.cursorY)) =
      some ([[0x32, 0x4A], [32, 32]], 2, 0) := by
  decide

/-- C4: counterexample.  Writing width = 2 printable bytes from (0, 0) on a
2x3 grid leaves the cursor at (2, 0) — column width of the same row — not at
(0, 1) as claimed; the wrap is deferred to the next printable byte. -/
theorem Write_width_printables_counterexample :
    ((NewPaneBuffer 2 3).Write [97, 98]).map
        (fun pb => (pb.cursorX, pb.cursorY)) = some (2, 0) ∧
      ((2 : Nat), (0 : Nat)) ≠ ((0 : Nat), (1 : Nat)) := by
  decide

/-- C7: counterexample.  Backspace with the cursor at column 0 is not a
no-op: the cursor stays at (0, 0) but the cell under it is blanked (the
rune 97 is overwritten with a space), so a cell is modified. -/
theorem Write_backspace_column0_counterexample :
    (PaneBuffer.Write ⟨[[97]], 0, 0, 1, 1, false, []⟩ [0x08]).map
        (fun pb => (pb.cursorX, pb.cursorY, pb.content)) =
      some (0, 0, [[32]]) ∧ ([[32]] : List (List Nat)) ≠ [[97]] := by
  decide

/-- C7: amended claim.  In normal mode, with the cursor on a row inside the
grid, backspace moves the cursor one column left saturating at column 0,
and always blanks the cell at the resulting cursor position — including at
column 0, where the cursor does not move but the cell in column 0 of the
current row is still overwritten with a space. -/
theorem Write_backspace_amended (pb : PaneBuffer)
    (hesc : pb.inEscape = false) (hWF : WF pb)
    (hy : pb.cursorY < pb.height) (hw : 0 < pb.width)
    (hx : pb.cursorX ≤ pb.width) :
    ∃ pb₁, pb.Write [0x08] = some pb₁ ∧
      pb₁.cursorX = pb.cursorX - 1 ∧
      pb₁.cursorY = pb.cursorY ∧
      cellAt pb₁ pb.cursorY (pb.cursorX - 1) = 32 := by
  obtain ⟨hlen, hrows⟩ := hWF
  have hylen : pb.cursorY < pb.content.length := by omega
  have hrow : pb.content[pb.cursorY]? = some pb.content[pb.cursorY] :=
    List.getElem?_eq_getElem hylen
  have hrlen : pb.content[pb.cursorY].length = pb.width :=
    hrows _ (List.getElem_mem hylen)
  have hxeq : (if 0 < pb.cursorX then pb.cursorX - 1 else pb.cursorX) =
      pb.cursorX - 1 := by
    rcases Nat.eq_zero_or_pos pb.cursorX with h | h
    · rw [h]
      simp
    · rw [if_pos h]
  have hxr : pb.cursorX - 1 < pb.content[pb.cursorY].length := by
    rw [hrlen]
    omega
  have hset : setCell pb.content pb.cursorY (pb.cursorX - 1) 32 =
      some (pb.content.set pb.cursorY
        (pb.content[pb.cursorY].set (pb.cursorX - 1) 32)) := by
    simp only [setCell, hrow]
    rw [if_pos hxr]
  have hwb : writeByte pb 0x08 =
      some { pb with
        cursorX := pb.cursorX - 1
        content := pb.content.set pb.cursorY
          (pb.content[pb.cursorY].set (pb.cursorX - 1) 32) } := by
    unfold writeByte
    rw [if_neg (by simp [hesc])]
    rw [if_neg (by norm_num), if_neg (by norm_num), if_neg (by norm_num),
      if_pos rfl]
    simp only [hxeq, hset, Option.map_some']
  refine ⟨{ pb with
      cursorX := pb.cursorX - 1
      content := pb.content.set pb.cursorY
        (pb.content[pb.cursorY].set (pb.cursorX - 1) 32) }, ?_, rfl, rfl, ?_⟩
  · show pb.Write [0x08] = _
    unfold PaneBuffer.Write
    rw [hwb]
    rfl
  · show cellAt _ pb.cursorY (pb.cursorX - 1) = 32
    unfold cellAt
    simp only [List.getD_eq_getElem?_getD]
    rw [List.getElem?_set_self hylen]
    simp only [Option.getD_some]
    rw [List.getElem?_set_self hxr]
    rfl

/-- C7: witness for the amended claim on a 1x1 grid holding the rune 97 with
the cursor at column 0. -/
theorem Write_backspace_amended_witness :
    (⟨[[97]], 0, 0, 1, 1, false, []⟩ : PaneBuffer).inEscape = false ∧
      WF ⟨[[97]], 0, 0, 1, 1, false, []⟩ ∧ (0 : Nat) < 1 ∧ (0 : Nat) < 1 ∧
      (0 : Nat) ≤ 1 ∧
      ∃ pb₁, (⟨[[97]], 0, 0, 1, 1, false, []⟩ : PaneBuffer).Write [0x08] =
          some pb₁ ∧
        pb₁.cursorX = 0 - 1 ∧ pb₁.cursorY = 0 ∧ cellAt pb₁ 0 (0 - 1) = 32 :=
  ⟨rfl, by decide, by decide, by decide, by decide,
    Write_backspace_amended ⟨[[97]], 0, 0, 1, 1, false, []⟩ rfl (by decide)
      (by decide) (by decide) (by decide)⟩

theorem write_printables_advance (bs : List Nat) (pb : PaneBuffer)
    (hWF : WF pb) (hesc : pb.inEscape = false)
    (hy : pb.cursorY < pb.height)
    (hx : pb.cursorX + bs.length ≤ pb.width)
    (hp : ∀ b ∈ bs, Printable b) :
    ∃ pb₁, pb.Write bs = some pb₁ ∧
      pb₁.cursorX = pb.cursorX + bs.length ∧
      pb₁.cursorY = pb.cursorY ∧
      pb₁.width = pb.width ∧ pb₁.height = pb.height ∧
      pb₁.inEscape = false ∧ WF pb₁ := by
  induction bs generalizing pb with
  | nil =>
      exact ⟨pb, rfl, by simp, rfl, rfl, rfl, hesc, hWF⟩
  | cons b bs ih =>
      obtain ⟨hlen, hrows⟩ := hWF
      obtain ⟨h1b, h2b, h3b, h4b⟩ := hp b (List.mem_cons_self b bs)
      have hxlt : pb.cursorX < pb.width := by
        simp only [List.length_cons] at hx
        omega
      have hylen : pb.cursorY < pb.content.length := by omega
      have hrow : pb.content[pb.cursorY]? = some pb.content[pb.cursorY] :=
        List.getElem?_eq_getElem hylen
      have hrlen : pb.content[pb.cursorY].length = pb.width :=
        hrows _ (List.getElem_mem hylen)
      have hxrow : pb.cursorX < pb.content[pb.cursorY].length := by
        rw [hrlen]
        exact hxlt
      have hset : setCell pb.content pb.cursorY pb.cursorX b =
          some (pb.content.set pb.cursorY
            (pb.content[pb.cursorY].set pb.cursorX b)) := by
        simp only [setCell, hrow]
        rw [if_pos hxrow]
      have hwb : writeByte pb b =
          some { pb with
            content := pb.content.set pb.cursorY
              (pb.content[pb.cursorY].set pb.cursorX b)
            cursorX := pb.cursorX + 1
            cursorY := pb.cursorY } := by
        unfold writeByte
        rw [if_neg (by simp [hesc])]
        rw [if_neg h1b, if_neg h2b, if_neg h3b, if_neg h4b]
        rw [if_neg (by omega)]
        unfold writePrintableAt
        rw [if_neg (by omega)]
        rw [hset]
        rfl
      set pb₂ : PaneBuffer := { pb with
        content := pb.content.set pb.cursorY
          (pb.content[pb.cursorY].set pb.cursorX b)
        cursorX := pb.cursorX + 1
        cursorY := pb.cursorY } with hpb₂
      have hWF₂ : WF pb₂ := by
        constructor
        · simp [hpb₂, List.length_set, hlen]
        · intro r hr
          simp only [hpb₂] at hr
          rcases List.mem_or_eq_of_mem_set hr with hmem | heq
          · exact hrows r hmem
          · rw [heq]
            simp [List.length_set, hrlen]
      have hx₂ : pb₂.cursorX + bs.length ≤ pb₂.width := by
        simp only [hpb₂, List.length_cons] at hx ⊢
        omega
      obtain ⟨pb₁, hw₁, hcx, hcy, hwd, hht, hie, hwf₁⟩ :=
        ih pb₂ hWF₂ (by simp [hpb₂, hesc]) (by simp [hpb₂]; omega) hx₂
          (fun c hc => hp c (List.mem_cons_of_mem b hc))
      refine ⟨pb₁, ?_, ?_, ?_, ?_, ?_, hie, hwf₁⟩
      · show pb.Write (b :: bs) = some pb₁
        unfold PaneBuffer.Write
        rw [hwb]
        exact hw₁
      · rw [hcx]
        simp [hpb₂, List.length_cons]
        omega
      · rw [hcy]
      · rw [hwd]
      · rw [hht]

/-- C4: amended claim.  From column 0 of any in-bounds row r of a
well-formed grid, feeding exactly width printable bytes leaves the cursor
at column width of the same row r — no wrap and no scroll have happened
yet, whether or not r is the last row; the wrap to (0, r+1), or the scroll
when r is the last row, is deferred to the next printable byte. -/
theorem Write_width_printables_amended (pb : PaneBuffer) (bs : List Nat)
    (hWF : WF pb) (hesc : pb.inEscape = false) (hx0 : pb.cursorX = 0)
    (hy : pb.cursorY < pb.height) (hblen : bs.length = pb.width)
    (hp : ∀ b ∈ bs, Printable b) :
    ∃ pb₁, pb.Write bs = some pb₁ ∧ pb₁.cursorX = pb.width ∧
      pb₁.cursorY = pb.cursorY := by
  obtain ⟨pb₁, hw, hcx, hcy, _, _, _, _⟩ :=
    write_printables_advance bs pb hWF hesc hy (by omega) hp
  exact ⟨pb₁, hw, by omega, hcy⟩

/-- C4: witness for the amended claim, two printable bytes on a blank 2x3
grid. -/
theorem Write_width_printables_amended_witness :
    WF (NewPaneBuffer 2 3) ∧ (NewPaneBuffer 2 3).inEscape = false ∧
      (NewPaneBuffer 2 3).cursorX = 0 ∧
      (NewPaneBuffer 2 3).cursorY < (NewPaneBuffer 2 3).height ∧
      ([97, 98] : List Nat).length = (NewPaneBuffer 2 3).width ∧
      (∀ b ∈ ([97, 98] : List Nat), Printable b) ∧
      ∃ pb₁, (NewPaneBuffer 2 3).Write [97, 98] = some pb₁ ∧
        pb₁.cursorX = (NewPaneBuffer 2 3).width ∧
        pb₁.cursorY = (NewPaneBuffer 2 3).cursorY :=
  ⟨by decide, by decide, by decide, by decide, by decide, by decide,
    Write_width_printables_amended (NewPaneBuffer 2 3) [97, 98] (by decide)
      (by decide) (by decide) (by decide) (by decide) (by decide)⟩

/-- C9: counterexample.  In the Broadcast trace for a single client the
connection write happens between acquire and release of clientMutex, so the
writes are not performed outside the lock as claimed. -/
theorem Broadcast_writes_not_outside_lock :
    allWritesOutsideLock (broadcastTrace [7] []) 0 = false := by
  decide

theorem allWritesUnderLock_writes_then_release (cs failing : List Nat)
    (d : Nat) (hd : d ≠ 0) :
    allWritesUnderLock
      ((cs.map fun c => BEvent.write c (!(failing.contains c))) ++
        [BEvent.release]) d = true := by
  induction cs generalizing d with
  | nil => simp [allWritesUnderLock]
  | cons c cs ih =>
      simp only [List.map_cons, List.cons_append, allWritesUnderLock,
        List.append_eq]
      rw [ih d hd]
      simp [hd]

theorem writeTargets_writes_then_release (cs failing : List Nat) :
    writeTargets
      ((cs.map fun c => BEvent.write c (!(failing.contains c))) ++
        [BEvent.release]) = cs := by
  induction cs with
  | nil => simp [writeTargets]
  | cons c cs ih =>
      simp only [List.map_cons, List.cons_append, writeTargets,
        List.append_eq]
      rw [ih]

/-- C9: amended claim.  Session.Broadcast acquires the client-set mutex,
performs every connection write while holding it (the unlock is deferred to
function exit), and a failed write is only logged: the loop still attempts
every client, so one failing client does not abort delivery to the rest. -/
theorem Broadcast_writes_under_lock_all_attempted
    (clients failing : List Nat) :
    allWritesUnderLock (broadcastTrace clients failing) 0 = true ∧
      writeTargets (broadcastTrace clients failing) = clients := by
  constructor
  · show allWritesUnderLock (BEvent.acquire :: _) 0 = true
    rw [show allWritesUnderLock (BEvent.acquire :: _) 0 =
        allWritesUnderLock _ 1 from rfl]
    exact allWritesUnderLock_writes_then_release clients failing 1 one_ne_zero
  · show writeTargets (BEvent.acquire :: _) = clients
    rw [show writeTargets (BEvent.acquire :: _) = writeTargets _ from rfl]
    exact writeTargets_writes_then_release clients failing

theorem be32_fold (L : Nat) (h : L < 2 ^ 32) :
    (((L / 2 ^ 24 % 256) * 256 + L / 2 ^ 16 % 256) * 256 + L / 2 ^ 8 % 256) *
        256 + L % 256 = L := by
  omega

theorem decode_frame_general (t : Nat) (p rest : List Nat)
    (h : p.length < 2 ^ 32) :
    decodeMsg (t :: be32 p.length ++ (p ++ rest)) = some (t, p, rest) := by
  have hfold := be32_fold p.length h
  simp only [be32, List.cons_append, List.nil_append, decodeMsg, hfold]
  rw [if_pos (by simp)]
  rw [List.take_left, List.drop_left]

theorem decode_encode_overflow (p : List Nat) (hlen : p.length = 2 ^ 32) :
    decodeMsg (encodeMsg 0 p) ≠ some (0, p, []) := by
  have hne : p ≠ [] := by
    intro h
    rw [h] at hlen
    simp at hlen
  have henc : encodeMsg 0 p = 0 :: 0 :: 0 :: 0 :: 0 :: p := by
    simp [encodeMsg, be32, hlen]
  rw [henc]
  have hdec : decodeMsg (0 :: 0 :: 0 :: 0 :: 0 :: p) = some (0, [], p) := by
    simp [decodeMsg]
  rw [hdec]
  intro h
  rw [Option.some_inj] at h
  exact hne (congrArg (fun x => x.2.2) h)

/-- C3: counterexample.  The encoder truncates the payload length through
uint32, so a payload of 2^32 zero bytes is framed with a length field of 0;
the decoder then returns an empty payload with the 2^32 bytes left over in
the stream, and the round trip is not the identity on that pair. -/
theorem decodeMsg_encodeMsg_counterexample :
    decodeMsg (encodeMsg 0 (List.replicate (2 ^ 32) 0)) ≠
      some (0, List.replicate (2 ^ 32) 0, []) :=
  decode_encode_overflow (List.replicate (2 ^ 32) 0)
    (List.length_replicate _ _)

/-- C3: amended claim.  For every type byte and every payload shorter than
2^32 bytes (so the uint32 length field is exact), decoding the encoder's
output returns exactly the original type and payload, with nothing left in
the stream. -/
theorem decodeMsg_encodeMsg_roundtrip (t : Nat) (p : List Nat)
    (h : p.length < 2 ^ 32) :
    decodeMsg (encodeMsg t p) = some (t, p, []) := by
  have hgen := decode_frame_general t p [] h
  rw [List.append_nil] at hgen
  unfold encodeMsg
  rw [Nat.mod_eq_of_lt h]
  exact hgen

/-- C3: witness for the amended round trip at a concrete message. -/
theorem decodeMsg_encodeMsg_roundtrip_witness :
    ([7, 8, 9] : List Nat).length < 2 ^ 32 ∧
      decodeMsg (encodeMsg 3 [7, 8, 9]) = some (3, [7, 8, 9], []) :=
  ⟨by norm_num, decodeMsg_encodeMsg_roundtrip 3 [7, 8, 9] (by norm_num)⟩

/-- C6: counterexample.  The reader enforces no maximum on the declared
payload length: a frame whose header declares the largest representable
length, 2^32 - 1, is accepted in full (the four-gigabyte payload is
allocated and read) instead of failing with a framing error, so no
configured maximum exists below the full range of the length field — and
the reader has no distinct framing-error outcome at all, only success or
end of stream. -/
theorem decodeMsg_no_length_maximum :
    decodeMsg (0 :: be32 (2 ^ 32 - 1) ++ List.replicate (2 ^ 32 - 1) 1) =
      some (0, List.replicate (2 ^ 32 - 1) 1, []) := by
  have h := decode_frame_general 0 (List.replicate (2 ^ 32 - 1) 1) []
    (by rw [List.length_replicate]; norm_num)
  rw [List.append_nil] at h
  rw [List.length_replicate] at h
  exact h

/-- C6: amended claim.  The reader either returns the declared (type,
payload) pair or, on a truncated stream, ends the connection; there is no
configured length maximum: every frame whose header declares the payload's
true length below 2^32 is decoded whole, whatever that length, with the
remaining stream preserved. -/
theorem decodeMsg_accepts_any_declared_length (t : Nat) (p rest : List Nat)
    (h : p.length < 2 ^ 32) :
    decodeMsg (t :: be32 p.length ++ (p ++ rest)) = some (t, p, rest) :=
  decode_frame_general t p rest h

/-- C6: witness for the amended claim at a concrete frame. -/
theorem decodeMsg_accepts_any_declared_length_witness :
    ([5, 6] : List Nat).length < 2 ^ 32 ∧
      decodeMsg (2 :: be32 2 ++ ([5, 6] ++ [9])) = some (2, [5, 6], [9]) :=
  ⟨by norm_num, by
    have h := decodeMsg_accepts_any_declared_length 2 [5, 6] [9] (by norm_num)
    simpa using h⟩

theorem receivedBy_append (conn : Nat) (w₁ w₂ : List (Nat × List Nat)) :
    receivedBy conn (w₁ ++ w₂) =
      receivedBy conn w₁ ++ receivedBy conn w₂ := by
  simp [receivedBy, List.filter_append]

theorem receivedBy_map_of_not_mem (conn : Nat) (m : List Nat)
    (cs : List Nat) (h : conn ∉ cs) :
    receivedBy conn (cs.map fun c => (c, m)) = [] := by
  induction cs with
  | nil => rfl
  | cons c cs ih =>
      have hc : c ≠ conn := fun hcc => h (hcc ▸ List.mem_cons_self c cs)
      have hcs : conn ∉ cs := fun hcc => h (List.mem_cons_of_mem c hcc)
      simp only [List.map_cons, receivedBy, List.filter_cons]
      rw [if_neg (by simpa using hc)]
      exact ih hcs

theorem receivedBy_map_single (conn : Nat) (m : List Nat) (cs : List Nat)
    (hmem : conn ∈ cs) (hnd : cs.Nodup) :
    receivedBy conn (cs.map fun c => (c, m)) = [m] := by
  induction cs with
  | nil => cases hmem
  | cons c cs ih =>
      rcases List.mem_cons.mp hmem with heq | hmem₂
      · have hcs : conn ∉ cs := heq ▸ (List.nodup_cons.mp hnd).1
        simp only [List.map_cons, receivedBy, List.filter_cons]
        rw [if_pos (by simp [heq])]
        simp only [List.map_cons]
        have := receivedBy_map_of_not_mem conn m cs hcs
        simp only [receivedBy] at this
        rw [this]
      · have hc : c ≠ conn := by
          intro hcc
          rw [hcc] at hnd
          exact (List.nodup_cons.mp hnd).1 hmem₂
        simp only [List.map_cons, receivedBy, List.filter_cons]
        rw [if_neg (by simpa using hc)]
        exact ih hmem₂ (List.nodup_cons.mp hnd).2

/-- C5: Session.NewPane on a session with N panes (called with the session
mutex free) yields N + 1 panes with the new pane appended and made active
(active index N), and every attached connection receives exactly the 0x0A
new-pane notification carrying the new pane's JSON-encoded identifier
followed by exactly the 0x08 status redraw, in that order. -/
theorem NewPane_appends_activates_notifies (s : GoSession) (conn : Nat)
    (hmem : conn ∈ s.clients) (hnd : s.clients.Nodup) :
    ∃ s₁ writes, NewPane false s = some (s₁, writes) ∧
      s₁.panes.length = s.panes.length + 1 ∧
      s₁.activePane = (s.panes.length : Int) ∧
      receivedBy conn writes =
        [encodeMsg 0x0A (jsonNat s.nextPaneID),
          encodeMsg 0x08 (statusMsg (s.panes.length : Int))] := by
  have hap : ((s.panes ++ [s.nextPaneID]).length : Int) - 1 =
      (s.panes.length : Int) := by
    push_cast [List.length_append, List.length_singleton]
    omega
  refine ⟨_, _, rfl, ?_, ?_, ?_⟩
  · simp
  · exact hap
  · show receivedBy conn (Broadcast _ _ ++ Broadcast _ _) = _
    rw [receivedBy_append]
    unfold Broadcast
    rw [receivedBy_map_single conn _ s.clients hmem hnd,
      receivedBy_map_single conn _ s.clients hmem hnd]
    rw [hap]
    rfl

/-- C5: witness on a one-pane session with one attached connection. -/
theorem NewPane_appends_activates_notifies_witness :
    (4 : Nat) ∈ ([4] : List Nat) ∧ ([4] : List Nat).Nodup ∧
      ∃ s₁ writes,
        NewPane false ⟨[0], 0, 1, [4]⟩ = some (s₁, writes) ∧
          s₁.panes.length = ([0] : List Nat).length + 1 ∧
          s₁.activePane = (([0] : List Nat).length : Int) ∧
          receivedBy 4 writes =
            [encodeMsg 0x0A (jsonNat 1),
              encodeMsg 0x08 (statusMsg (([0] : List Nat).length : Int))] :=
  ⟨by decide, by decide,
    NewPane_appends_activates_notifies ⟨[0], 0, 1, [4]⟩ 4 (by decide)
      (by decide)⟩

/-- C10: a daemon-to-client data message whose payload is shorter than the
4-byte pane-identifier prefix is silently discarded: the client state is
returned unchanged and no draw happens. -/
theorem HandleDataMessage_short_payload_noop (cs : GoClientState)
    (payload : List Nat) (h : payload.length < 4) :
    HandleDataMessage cs payload = some (cs, false) := by
  unfold HandleDataMessage
  rw [if_neg]
  omega

/-- C10: witness at a concrete 3-byte payload. -/
theorem HandleDataMessage_short_payload_noop_witness :
    ([1, 2, 3] : List Nat).length < 4 ∧
      HandleDataMessage ⟨[(0, NewPaneBuffer 2 2)], 0, []⟩ [1, 2, 3] =
        some (⟨[(0, NewPaneBuffer 2 2)], 0, []⟩, false) :=
  ⟨by decide,
    HandleDataMessage_short_payload_noop ⟨[(0, NewPaneBuffer 2 2)], 0, []⟩
      [1, 2, 3] (by decide)⟩

end Term
